import Mathlib

/-!
Shallow embedding of the Police 288 landing page's service worker (`sw.js`)
and of two pieces of `script.js` (the Make.com webhook submission and the
Arabic-digit normalisation).

Conventions of the embedding:
* a JS string is carried by Lean's `String` (converted to `List Char` when a
  JS string primitive has to be modelled character by character);
* the Cache Storage API is an association list of namespaces, each namespace
  an association list keyed by request URL;
* the network is a parameter `net : String → Except Unit Response`; `.error`
  models a rejected `fetch` (a thrown network error);
* an async handler returning a promise is a pure function returning
  `Except Unit (Option Response) × CacheStorage`: `.error` models a rejected
  promise, `.ok none` a promise resolving with `undefined`, and the second
  component the cache state after the handler ran.
-/

namespace Police288

/-- JS string primitive support: Boolean test that `pre` is a prefix of `l`. -/
def charsIsPre : List Char → List Char → Bool
  | [], _ => true
  | _ :: _, [] => false
  | a :: as, b :: bs => a == b && charsIsPre as bs

/-- Model of JS `String.prototype.startsWith`. -/
def jsStartsWith (s pre : String) : Bool :=
  charsIsPre pre.toList s.toList

/-- Helper for `jsIncludes`: does `sub` occur as a contiguous block of `l`? -/
def charsContains (sub : List Char) : List Char → Bool
  | [] => charsIsPre sub []
  | c :: cs => charsIsPre sub (c :: cs) || charsContains sub cs

/-- Model of JS `String.prototype.includes` (substring containment; an empty
argument is contained in every string, as in JS). -/
def jsIncludes (s sub : String) : Bool :=
  charsContains sub.toList s.toList

/-- Boolean test that `suf` is a suffix of `l`. -/
def charsIsSuf (suf l : List Char) : Bool :=
  charsIsPre suf.reverse l.reverse

/-- Model of a case-insensitive end-anchored extension test, as performed by
the regexes of the form `\.(css|js|...)$/i` in `sw.js`: the URL, lowercased,
ends with one of the given extensions. -/
def extensionTest (exts : List String) (url : String) : Bool :=
  exts.any fun e => charsIsSuf (e.toList.map Char.toLower) (url.toList.map Char.toLower)

/-- Model of JS `String.prototype.replace(str, '')` with a single-character
search string: remove the first occurrence of `ch`. Used for
`staticUrl.replace('/', '')` in `isStaticAsset`. -/
def removeFirstChar (ch : Char) : List Char → List Char
  | [] => []
  | c :: cs => if c = ch then cs else c :: removeFirstChar ch cs

/-- Model of `staticUrl.replace('/', '')` on a JS string. -/
def jsRemoveFirstSlash (s : String) : String :=
  ⟨removeFirstChar '/' s.toList⟩

/-- Model of a fetched `Response`: `ok` status flag, body text and headers. -/
structure Response where
  ok : Bool
  body : String
  headers : List (String × String)
deriving DecidableEq

/-- Lookup of a header value on a response. -/
def headerLookup (r : Response) (k : String) : Option String :=
  (r.headers.find? fun e => e.1 = k).map (·.2)

/-- One cache namespace: an association list keyed by request URL. -/
abbrev Cache := List (String × Response)

/-- Lookup of a URL inside one cache namespace (`cache.match`). -/
def cacheLookup (c : Cache) (url : String) : Option Response :=
  (c.find? fun e => e.1 = url).map (·.2)

/-- `cache.put`: overwrite the entry for `url` in place when one exists,
otherwise append a new entry. -/
def cachePutEntry (c : Cache) (url : String) (r : Response) : Cache :=
  if c.any (fun e => e.1 = url) then
    c.map fun e => if e.1 = url then (url, r) else e
  else
    c ++ [(url, r)]

/-- The Cache Storage: named cache namespaces in creation order. -/
structure CacheStorage where
  stores : List (String × Cache)
deriving DecidableEq

/-- The content of a namespace, when it exists. -/
def storageLookup (s : CacheStorage) (name : String) : Option Cache :=
  (s.stores.find? fun e => e.1 = name).map (·.2)

/-- `caches.open`: create the namespace (empty) when absent. -/
def cachesOpen (s : CacheStorage) (name : String) : CacheStorage :=
  if s.stores.any (fun e => e.1 = name) then s else ⟨s.stores ++ [(name, [])]⟩

/-- `caches.delete`: remove the namespace. -/
def cachesDelete (s : CacheStorage) (name : String) : CacheStorage :=
  ⟨s.stores.filter fun e => ¬e.1 = name⟩

/-- `caches.keys()`: the namespace names. -/
def cachesKeys (s : CacheStorage) : List String :=
  s.stores.map (·.1)

/-- `caches.match(request)`: search every namespace in order. -/
def cachesMatch (s : CacheStorage) (url : String) : Option Response :=
  s.stores.findSome? fun e => cacheLookup e.2 url

/-- `cache.put` through the storage, on the namespace called `name`. -/
def cachePut (s : CacheStorage) (name url : String) (r : Response) : CacheStorage :=
  ⟨s.stores.map fun e => if e.1 = name then (e.1, cachePutEntry e.2 url r) else e⟩

/-- Replace the whole content of the namespace called `name`. -/
def storageSet (s : CacheStorage) (name : String) (c : Cache) : CacheStorage :=
  ⟨s.stores.map fun e => if e.1 = name then (e.1, c) else e⟩

/-- The stored response for `url` in namespace `ns`, if any: the observable
"entries" of the storage, insensitive to a namespace being created empty. -/
def entryAt (s : CacheStorage) (ns url : String) : Option Response :=
  match storageLookup s ns with
  | some c => cacheLookup c url
  | none => none

/-! Constants of `sw.js`. -/

def CACHE_NAME : String := "police288-v2.1.0"

def CACHE_STATIC_NAME : String := "police288-static-v2.1.0"

def CACHE_DYNAMIC_NAME : String := "police288-dynamic-v2.1.0"

/-- The static manifest `STATIC_CACHE_URLS` of `sw.js`. -/
def STATIC_CACHE_URLS : List String :=
  [ "/",
    "/index.html",
    "/styles.css?v=2.1.0&t=1734705600",
    "/mobile-reviews.css?v=2.1.0&t=1734705600",
    "/script.js?v=2.1.0&t=1734705600",
    "/public/images/288-flashlight-main-image.jpg",
    "/confirmation.html",
    "https://fonts.googleapis.com/css2?family=Cairo:wght@400;600;700&display=swap",
    "https://fonts.gstatic.com/s/cairo/v28/SLXgc1nY6HkvalYAIYM4_z6rC7TODm6H7xaFU6jd_E0w0tKLUdwqjZjL.woff2" ]

/-! Request classification (`isStaticAsset`, `isImageRequest`, `isAPIRequest`). -/

/-- `isStaticAsset` of `sw.js`: a manifest entry (first slash removed) occurs
in the URL, or the URL has a stylesheet/script/font extension. -/
def isStaticAsset (url : String) : Bool :=
  STATIC_CACHE_URLS.any (fun staticUrl => jsIncludes url (jsRemoveFirstSlash staticUrl))
  || extensionTest [".css", ".js", ".woff2", ".woff", ".ttf"] url

/-- `isImageRequest` of `sw.js`: the URL has an image extension. -/
def isImageRequest (url : String) : Bool :=
  extensionTest [".png", ".jpg", ".jpeg", ".gif", ".webp", ".avif", ".svg", ".ico"] url

/-- `isAPIRequest` of `sw.js`: the URL targets a known third-party endpoint. -/
def isAPIRequest (url : String) : Bool :=
  jsIncludes url "make.com"
  || jsIncludes url "analytics.tiktok.com"
  || jsIncludes url "googleapis.com"

/-! The four request handlers. -/

/-- `handleStaticAsset` of `sw.js` (cache first): serve the cached entry when
present; otherwise fetch, open the static namespace, store a copy there when
the response is `ok`, and return the network response.  A thrown fetch error
lands in the `catch`, which returns `caches.match(request)` — resolving with
the cache-lookup result (possibly `undefined`). -/
def handleStaticAsset (net : String → Except Unit Response) (s : CacheStorage)
    (url : String) : Except Unit (Option Response) × CacheStorage :=
  match cachesMatch s url with
  | some cached => (.ok (some cached), s)
  | none =>
    match net url with
    | .ok nr =>
      let s1 := cachesOpen s CACHE_STATIC_NAME
      let s2 := if nr.ok then cachePut s1 CACHE_STATIC_NAME url nr else s1
      (.ok (some nr), s2)
    | .error _ => (.ok (cachesMatch s url), s)

/-- The inline placeholder image of `handleImageRequest`:
`new Response('<svg .../>', { headers: { 'Content-Type': 'image/svg+xml' } })`
(a constructed `Response` defaults to status 200, hence `ok`). -/
def placeholderImage : Response :=
  { ok := true
    body := "<svg xmlns=\"http://www.w3.org/2000/svg\" width=\"200\" height=\"150\" viewBox=\"0 0 200 150\">\n                <rect width=\"200\" height=\"150\" fill=\"#f1f5f9\"/>\n                <text x=\"50%\" y=\"50%\" text-anchor=\"middle\" dy=\".3em\" fill=\"#64748b\">📷</text>\n            </svg>"
    headers := [("Content-Type", "image/svg+xml")] }

/-- `handleImageRequest` of `sw.js` (cache first with fallback): serve the
cached entry when present; otherwise fetch, store an `ok` response in the
dynamic namespace, and return it.  When the fetch throws, serve the cached
entry if any, else synthesize the inline SVG placeholder. -/
def handleImageRequest (net : String → Except Unit Response) (s : CacheStorage)
    (url : String) : Except Unit (Option Response) × CacheStorage :=
  match cachesMatch s url with
  | some cached => (.ok (some cached), s)
  | none =>
    match net url with
    | .ok nr =>
      let s1 :=
        if nr.ok then cachePut (cachesOpen s CACHE_DYNAMIC_NAME) CACHE_DYNAMIC_NAME url nr
        else s
      (.ok (some nr), s1)
    | .error _ =>
      match cachesMatch s url with
      | some cached => (.ok (some cached), s)
      | none => (.ok (some placeholderImage), s)

/-- `handleAPIRequest` of `sw.js` (network only): fetch and return; a thrown
fetch error is logged and rethrown.  No cache is read or written. -/
def handleAPIRequest (net : String → Except Unit Response) (s : CacheStorage)
    (url : String) : Except Unit (Option Response) × CacheStorage :=
  match net url with
  | .ok nr => (.ok (some nr), s)
  | .error e => (.error e, s)

/-- `handleHTMLRequest` of `sw.js` (network first with cache fallback): fetch;
store an `ok` response in the dynamic namespace and return it.  When the fetch
throws, serve the cached entry for the URL if any, else the cache lookup of
the offline fallback `/index.html`. -/
def handleHTMLRequest (net : String → Except Unit Response) (s : CacheStorage)
    (url : String) : Except Unit (Option Response) × CacheStorage :=
  match net url with
  | .ok nr =>
    let s1 :=
      if nr.ok then cachePut (cachesOpen s CACHE_DYNAMIC_NAME) CACHE_DYNAMIC_NAME url nr
      else s
    (.ok (some nr), s1)
  | .error _ =>
    match cachesMatch s url with
    | some cached => (.ok (some cached), s)
    | none => (.ok (cachesMatch s "/index.html"), s)

/-! Lifecycle events. -/

/-- The deletion test of the `activate` listener:
`cacheName !== CACHE_STATIC_NAME && cacheName !== CACHE_DYNAMIC_NAME &&
cacheName.startsWith('police288-')`. -/
def shouldDeleteCache (name : String) : Bool :=
  ¬name = CACHE_STATIC_NAME && ¬name = CACHE_DYNAMIC_NAME && jsStartsWith name "police288-"

/-- The `activate` listener: enumerate `caches.keys()` and delete every
namespace satisfying `shouldDeleteCache` (then claim clients, which has no
effect on the cache state). -/
def activateEvent (s : CacheStorage) : CacheStorage :=
  (cachesKeys s).foldl
    (fun acc name => if shouldDeleteCache name then cachesDelete acc name else acc) s

/-- Platform model of the fetch phase of `cache.addAll`: fetch every URL with
`{ cache: 'reload' }`; the whole batch rejects when any fetch rejects or any
response is not `ok`. -/
def fetchAllOk (net : String → Except Unit Response) :
    List String → Except Unit (List (String × Response))
  | [] => .ok []
  | u :: us =>
    match net u with
    | .error e => .error e
    | .ok r =>
      if r.ok then (fetchAllOk net us).map (fun rest => (u, r) :: rest)
      else .error ()

/-- Platform model of `cache.addAll(urls)`: fetch all, then put all (batched:
a failed batch writes nothing). -/
def cacheAddAll (net : String → Except Unit Response) (c : Cache)
    (urls : List String) : Except Unit Cache :=
  (fetchAllOk net urls).map fun rs =>
    rs.foldl (fun acc ur => cachePutEntry acc ur.1 ur.2) c

/-- Outcome of the `install` listener's `event.waitUntil` promise. -/
structure InstallOutcome where
  /-- The lifecycle promise resolved (installation completed). -/
  resolved : Bool
  /-- `self.skipWaiting()` was reached. -/
  skipWaitingCalled : Bool
  /-- The cache state afterwards. -/
  state : CacheStorage
deriving DecidableEq

/-- The `install` listener of `sw.js`: open the static namespace and
`addAll` the manifest into it, open the dynamic namespace, then
`skipWaiting` — with a `catch` that only logs, so a failed `addAll` leaves
the `waitUntil` promise resolved. -/
def installEvent (net : String → Except Unit Response) (s : CacheStorage) :
    InstallOutcome :=
  let sStatic := cachesOpen s CACHE_STATIC_NAME
  let staticCache := (storageLookup sStatic CACHE_STATIC_NAME).getD []
  match cacheAddAll net staticCache STATIC_CACHE_URLS with
  | .ok c1 =>
    { resolved := true
      skipWaitingCalled := true
      state := cachesOpen (storageSet sStatic CACHE_STATIC_NAME c1) CACHE_DYNAMIC_NAME }
  | .error _ =>
    { resolved := true
      skipWaitingCalled := false
      state := cachesOpen sStatic CACHE_DYNAMIC_NAME }

/-- `updateCache` of `sw.js` (the `UPDATE_CACHE` control message): re-run
`addAll` of the manifest on the static namespace. -/
def updateCache (net : String → Except Unit Response) (s : CacheStorage) :
    Except Unit CacheStorage :=
  let sStatic := cachesOpen s CACHE_STATIC_NAME
  let staticCache := (storageLookup sStatic CACHE_STATIC_NAME).getD []
  (cacheAddAll net staticCache STATIC_CACHE_URLS).map fun c1 =>
    storageSet sStatic CACHE_STATIC_NAME c1

/-! The webhook submission of `script.js` (`sendToMakeWebhook`). -/

/-- A JS value, as far as the broken retry condition needs: the boolean
produced by `!error.name` and the string literal it is compared against. -/
inductive JSValue where
  | boolean : Bool → JSValue
  | string : String → JSValue
deriving DecidableEq

/-- JS truthiness of the modelled values (a string is truthy iff nonempty). -/
def jsTruthy : JSValue → Bool
  | .boolean b => b
  | .string s => ¬s = ""

/-- JS logical negation `!v`, always producing a boolean. -/
def jsNotVal (v : JSValue) : JSValue :=
  .boolean (!jsTruthy v)

/-- JS strict equality `===`: values of different types are never equal. -/
def jsStrictEq : JSValue → JSValue → Bool
  | .boolean a, .boolean b => a == b
  | .string a, .string b => a == b
  | .boolean _, .string _ => false
  | .string _, .boolean _ => false

/-- Outcome of one webhook `fetch` attempt: `ok` response; non-ok response
(thrown as `new Error(...)`, whose `name` is `"Error"`); or a rejected fetch
carrying the thrown error's `name` (`"AbortError"` for the 10 s timeout,
typically `"TypeError"` for a network failure). -/
inductive AttemptOutcome where
  | ok : AttemptOutcome
  | httpError : Nat → AttemptOutcome
  | netError : String → AttemptOutcome
deriving DecidableEq

/-- The `error.name` observed in the `catch` block for a failed attempt. -/
def errorNameOf : AttemptOutcome → String
  | .ok => ""
  | .httpError _ => "Error"
  | .netError n => n

/-- `maxRetries` of `sendToMakeWebhook`. -/
def maxRetries : Nat := 2

/-- The fixed per-attempt abort timeout of `sendToMakeWebhook`, in ms. -/
def webhookTimeoutMs : Nat := 10000

/-- The wait inserted before a retry of `sendToMakeWebhook`, in ms. -/
def retryDelayMs : Nat := 2000

/-- The retry guard of `sendToMakeWebhook`, exactly as written:
`retryCount < maxRetries && !error.name === 'AbortError'` — where JS
precedence parses the second conjunct as `(!error.name) === 'AbortError'`. -/
def retryCondition (retryCount : Nat) (errName : String) : Bool :=
  decide (retryCount < maxRetries)
    && jsStrictEq (jsNotVal (.string errName)) (.string "AbortError")

/-- Result of `sendToMakeWebhook`: the reported success flag and the
`retryCount` of the attempt that produced it (`0` means no retry happened). -/
structure WebhookResult where
  success : Bool
  finalRetryCount : Nat
deriving DecidableEq

/-- `sendToMakeWebhook` of `script.js`: try the POST; on an `ok` response
report success; otherwise, when the retry guard holds, wait two seconds and
recurse with `retryCount + 1`, else report failure. -/
def sendToMakeWebhook (net : Nat → AttemptOutcome) (retryCount : Nat) :
    WebhookResult :=
  match net retryCount with
  | .ok => { success := true, finalRetryCount := retryCount }
  | outcome =>
    if h : retryCondition retryCount (errorNameOf outcome) = true then
      sendToMakeWebhook net (retryCount + 1)
    else
      { success := false, finalRetryCount := retryCount }
termination_by maxRetries + 1 - retryCount
decreasing_by
  simp only [retryCondition, jsNotVal, jsTruthy, jsStrictEq, Bool.and_eq_true,
    decide_eq_true_eq] at h
  exact absurd h.2 (by simp)

/-! Arabic-digit normalisation of `script.js`
(`convertArabicToEnglishNumbers`).  A JS string is modelled as its character
sequence; `result.replace(new RegExp(d, 'g'), e)` with a single-character
pattern `d` replaces every occurrence of that character. -/

/-- The `arabicNumbers` array of `script.js`. -/
def arabicNumbers : List Char :=
  ['٠', '١', '٢', '٣', '٤', '٥', '٦', '٧', '٨', '٩']

/-- The `englishNumbers` array of `script.js`. -/
def englishNumbers : List Char :=
  ['0', '1', '2', '3', '4', '5', '6', '7', '8', '9']

/-- Global single-character replacement, the effect of
`result.replace(new RegExp(d, 'g'), e)` for a one-character pattern. -/
def replaceAllChar (s : List Char) (d e : Char) : List Char :=
  s.map fun c => if c = d then e else c

/-- `convertArabicToEnglishNumbers` of `script.js`: replace the ten
Arabic-Indic digits in order, one global replacement per digit. -/
def convertArabicToEnglishNumbers (input : List Char) : List Char :=
  (arabicNumbers.zip englishNumbers).foldl
    (fun res p => replaceAllChar res p.1 p.2) input

/-- Specification-side character map (the per-character reading of the claim):
each Arabic-Indic digit goes to the corresponding ASCII digit, every other
character is unchanged.  Used to state the refinement of
`convertArabicToEnglishNumbers`. -/
def digitMapChar (c : Char) : Char :=
  if c = '٠' then '0'
  else if c = '١' then '1'
  else if c = '٢' then '2'
  else if c = '٣' then '3'
  else if c = '٤' then '4'
  else if c = '٥' then '5'
  else if c = '٦' then '6'
  else if c = '٧' then '7'
  else if c = '٨' then '8'
  else if c = '٩' then '9'
  else c

/-- The static namespace content of a storage (empty when absent). -/
def staticCacheOf (s : CacheStorage) : Cache :=
  (storageLookup s CACHE_STATIC_NAME).getD []

/-- A sample `ok` response, for concrete instantiations. -/
def demoOk : Response :=
  { ok := true, body := "payload", headers := [] }

/-- A sample non-`ok` response (e.g. an HTTP 404), for concrete
instantiations. -/
def demoBad : Response :=
  { ok := false, body := "not found", headers := [] }

/-- A sample pre-activation storage: the v2.0.0 namespaces, the current
v2.1.0 namespaces and an unrelated third-party namespace. -/
def demoStores : CacheStorage :=
  ⟨[ ("police288-static-v2.0.0", []),
     ("police288-dynamic-v2.0.0", []),
     ("police288-static-v2.1.0", []),
     ("police288-dynamic-v2.1.0", []),
     ("unrelated-cache", []) ]⟩

/-! Helper lemmas about the cache model. -/

theorem find_of_filter_none {α : Type} (l : List α) (p keep : α → Bool)
    (h : ∀ e ∈ l, p e = true → keep e = false) :
    (l.filter keep).find? p = none := by
  rw [List.find?_eq_none]
  intro x hx hpx
  have hxl : x ∈ l := List.mem_of_mem_filter hx
  have hkeep : keep x = true := List.of_mem_filter hx
  have := h x hxl hpx
  rw [hkeep] at this
  exact Bool.noConfusion this

theorem find_of_filter_keep {α : Type} (l : List α) (p keep : α → Bool)
    (h : ∀ e ∈ l, p e = true → keep e = true) :
    (l.filter keep).find? p = l.find? p := by
  induction l with
  | nil => rfl
  | cons a as ih =>
    have htail : ∀ e ∈ as, p e = true → keep e = true :=
      fun e he => h e (List.mem_cons_of_mem a he)
    cases hk : keep a with
    | true =>
      cases hpa : p a with
      | true =>
        rw [List.filter_cons, if_pos hk, List.find?_cons_of_pos _ hpa,
          List.find?_cons_of_pos _ hpa]
      | false =>
        rw [List.filter_cons, if_pos hk, List.find?_cons_of_neg _ (by simp [hpa]),
          List.find?_cons_of_neg _ (by simp [hpa]), ih htail]
    | false =>
      have hpa : p a = false := by
        cases hpa : p a with
        | false => rfl
        | true =>
          have := h a (List.mem_cons_self a as) hpa
          rw [hk] at this
          exact Bool.noConfusion this
      rw [List.filter_cons, if_neg (by simp [hk]), List.find?_cons_of_neg _ (by simp [hpa]),
        ih htail]

theorem activate_foldl_stores (names : List String) (acc : CacheStorage) :
    (names.foldl
        (fun a name => if shouldDeleteCache name then cachesDelete a name else a)
        acc).stores
      = acc.stores.filter fun e => !(shouldDeleteCache e.1 && names.contains e.1) := by
  induction names generalizing acc with
  | nil => simp
  | cons n ns ih =>
    rw [List.foldl_cons]
    cases hn : shouldDeleteCache n with
    | true =>
      rw [if_pos rfl, ih, cachesDelete, List.filter_filter]
      apply List.filter_congr
      intro e _
      by_cases he : e.1 = n
      · simp [he, hn]
      · simp [he]
    | false =>
      rw [if_neg (by simp), ih]
      apply List.filter_congr
      intro e _
      by_cases he : e.1 = n
      · simp [he, hn]
      · simp [he]

theorem activateEvent_stores (s : CacheStorage) :
    (activateEvent s).stores = s.stores.filter fun e => !shouldDeleteCache e.1 := by
  rw [activateEvent, activate_foldl_stores]
  apply List.filter_congr
  intro e he
  have hmem : e.1 ∈ cachesKeys s := List.mem_map_of_mem Prod.fst he
  have hc : (cachesKeys s).contains e.1 = true := by
    simpa using hmem
  rw [hc, Bool.and_true]

theorem activate_lookup_of_del (s : CacheStorage) (n : String)
    (h : shouldDeleteCache n = true) :
    storageLookup (activateEvent s) n = none := by
  unfold storageLookup
  rw [activateEvent_stores, find_of_filter_none]
  · rfl
  · intro e _ hpe
    have he : e.1 = n := by simpa using hpe
    simp [he, h]

theorem activate_lookup_of_keep (s : CacheStorage) (n : String)
    (h : shouldDeleteCache n = false) :
    storageLookup (activateEvent s) n = storageLookup s n := by
  unfold storageLookup
  rw [activateEvent_stores, find_of_filter_keep]
  intro e _ hpe
  have he : e.1 = n := by simpa using hpe
  simp [he, h]

theorem entryAt_cachesOpen (s : CacheStorage) (name ns u : String) :
    entryAt (cachesOpen s name) ns u = entryAt s ns u := by
  unfold cachesOpen
  by_cases h : s.stores.any (fun e => e.1 = name) = true
  · rw [if_pos h]
  · rw [if_neg h]
    unfold entryAt storageLookup
    rw [List.find?_append]
    cases hf : s.stores.find? (fun e => decide (e.1 = ns)) with
    | some e => rfl
    | none =>
      by_cases hns : name = ns
      · simp [hns, cacheLookup]
      · simp [hns]

theorem find?_map_put (l : List (String × Cache)) (name url : String) (r : Response) :
    ((l.map fun e => if e.1 = name then (e.1, cachePutEntry e.2 url r) else e).find?
        fun e => e.1 = name)
      = (l.find? fun e => e.1 = name).map fun e => (e.1, cachePutEntry e.2 url r) := by
  induction l with
  | nil => rfl
  | cons a as ih =>
    by_cases h : a.1 = name
    · simp [h]
    · simp [h, ih]

theorem storageLookup_cachePut_self (s : CacheStorage) (name url : String) (r : Response) :
    storageLookup (cachePut s name url r) name
      = (storageLookup s name).map fun c => cachePutEntry c url r := by
  unfold storageLookup cachePut
  rw [find?_map_put]
  cases s.stores.find? (fun e => decide (e.1 = name)) <;> rfl

theorem cacheLookup_map_put (c : Cache) (url : String) (r : Response)
    (h : c.any (fun e => e.1 = url) = true) :
    cacheLookup (c.map fun e => if e.1 = url then (url, r) else e) url = some r := by
  induction c with
  | nil => exact absurd h (by simp)
  | cons a as ih =>
    by_cases ha : a.1 = url
    · simp [cacheLookup, ha]
    · have h' : as.any (fun e => e.1 = url) = true := by
        simpa [List.any_cons, ha] using h
      have := ih h'
      unfold cacheLookup at this ⊢
      simpa [ha] using this

theorem cacheLookup_putEntry_self (c : Cache) (url : String) (r : Response) :
    cacheLookup (cachePutEntry c url r) url = some r := by
  unfold cachePutEntry
  by_cases h : c.any (fun e => e.1 = url) = true
  · rw [if_pos h]
    exact cacheLookup_map_put c url r h
  · rw [if_neg h]
    have hn : c.find? (fun e => decide (e.1 = url)) = none := by
      rw [List.find?_eq_none]
      intro x hx hpx
      exact h (List.any_eq_true.mpr ⟨x, hx, hpx⟩)
    unfold cacheLookup
    rw [List.find?_append, hn]
    simp

theorem storageLookup_open_self (s : CacheStorage) (name : String) :
    ∃ c, storageLookup (cachesOpen s name) name = some c := by
  unfold cachesOpen storageLookup
  by_cases h : s.stores.any (fun e => e.1 = name) = true
  · rw [if_pos h]
    obtain ⟨x, hx, hpx⟩ := List.any_eq_true.mp h
    have : (s.stores.find? fun e => decide (e.1 = name)).isSome := by
      rw [List.find?_isSome]
      exact ⟨x, hx, hpx⟩
    obtain ⟨e, he⟩ := Option.isSome_iff_exists.mp this
    exact ⟨e.2, by rw [he]; rfl⟩
  · rw [if_neg h]
    have hn : s.stores.find? (fun e => decide (e.1 = name)) = none := by
      rw [List.find?_eq_none]
      intro x hx hpx
      exact h (List.any_eq_true.mpr ⟨x, hx, hpx⟩)
    refine ⟨[], ?_⟩
    rw [List.find?_append, hn]
    simp

theorem entryAt_open_put_self (s : CacheStorage) (name url : String) (r : Response) :
    entryAt (cachePut (cachesOpen s name) name url r) name url = some r := by
  obtain ⟨c, hc⟩ := storageLookup_open_self s name
  unfold entryAt
  rw [storageLookup_cachePut_self, hc]
  simp [cacheLookup_putEntry_self]

/-! Claim theorems. -/

/-- C1 (counterexample to the claim as stated): for a static-asset request on
an empty cache with a failing network, `handleStaticAsset` resolves with the
non-error value `none` (JS `undefined`) — it does not propagate the failure
to the request initiator. -/
theorem handleStaticAsset_noPropagate_cex :
    (handleStaticAsset (fun _ => Except.error ()) ⟨[]⟩ "/app.css").1 = Except.ok none
    ∧ (Except.ok (none : Option Response) : Except Unit (Option Response)) ≠ Except.error ()
    ∧ isStaticAsset "/app.css" = true := by
  refine ⟨rfl, ?_, by decide⟩
  intro h
  exact Except.noConfusion h

/-- C1 (amended): `handleStaticAsset` is cache-first — it returns the cached
entry when one exists; otherwise it fetches, stores a copy in the static
namespace exactly when the response is successful, and returns the network
response; and when the fetch throws with no cached entry it resolves with the
empty cache-lookup result (`none`, JS `undefined`) instead of rejecting. -/
theorem handleStaticAsset_strategy (net : String → Except Unit Response)
    (s : CacheStorage) (url : String) (_hstat : isStaticAsset url = true) :
    (∀ c, cachesMatch s url = some c →
       handleStaticAsset net s url = (Except.ok (some c), s))
    ∧ (∀ nr, cachesMatch s url = none → net url = Except.ok nr →
       handleStaticAsset net s url
         = (Except.ok (some nr),
            if nr.ok then cachePut (cachesOpen s CACHE_STATIC_NAME) CACHE_STATIC_NAME url nr
            else cachesOpen s CACHE_STATIC_NAME))
    ∧ (cachesMatch s url = none → net url = Except.error () →
       handleStaticAsset net s url = (Except.ok none, s)) := by
  refine ⟨?_, ?_, ?_⟩
  · intro c hc
    simp [handleStaticAsset, hc]
  · intro nr hmiss hnet
    simp only [handleStaticAsset, hmiss, hnet]
  · intro hmiss hnet
    simp [handleStaticAsset, hmiss, hnet]

/-- C1 (witness): the cache-miss, successful-fetch branch at a concrete
static-asset request. -/
theorem handleStaticAsset_strategy_witness :
    handleStaticAsset (fun _ => Except.ok demoOk) ⟨[]⟩ "/app.css"
      = (Except.ok (some demoOk),
         if demoOk.ok then
           cachePut (cachesOpen ⟨[]⟩ CACHE_STATIC_NAME) CACHE_STATIC_NAME "/app.css" demoOk
         else cachesOpen ⟨[]⟩ CACHE_STATIC_NAME) :=
  (handleStaticAsset_strategy (fun _ => Except.ok demoOk) ⟨[]⟩ "/app.css"
    (by decide)).2.1 demoOk rfl rfl

/-- C3: `handleAPIRequest` never reads or writes any cache — it returns the
fresh network result on success, rethrows on failure, leaves the state
untouched, and a second consecutive request again returns its own fresh
network result over the unchanged state. -/
theorem handleAPIRequest_networkOnly (net1 net2 : String → Except Unit Response)
    (s : CacheStorage) (url : String) (_hapi : isAPIRequest url = true) :
    (∀ r, net1 url = Except.ok r → handleAPIRequest net1 s url = (Except.ok (some r), s))
    ∧ (net1 url = Except.error () → handleAPIRequest net1 s url = (Except.error (), s))
    ∧ (handleAPIRequest net1 s url).2 = s
    ∧ (∀ r2, net2 url = Except.ok r2 →
       handleAPIRequest net2 (handleAPIRequest net1 s url).2 url = (Except.ok (some r2), s)) := by
  have hsnd : (handleAPIRequest net1 s url).2 = s := by
    unfold handleAPIRequest
    cases net1 url <;> rfl
  refine ⟨?_, ?_, hsnd, ?_⟩
  · intro r h
    simp [handleAPIRequest, h]
  · intro h
    simp [handleAPIRequest, h]
  · intro r2 h2
    rw [hsnd]
    simp [handleAPIRequest, h2]

/-- C3 (witness): two consecutive requests to a `make.com` URL on the empty
storage, both fetching fresh and leaving the storage unchanged. -/
theorem handleAPIRequest_networkOnly_witness :
    handleAPIRequest (fun _ => Except.ok demoOk)
        (handleAPIRequest (fun _ => Except.ok demoOk) ⟨[]⟩ "https://hook.eu2.make.com/test").2
        "https://hook.eu2.make.com/test"
      = (Except.ok (some demoOk), (⟨[]⟩ : CacheStorage)) :=
  (handleAPIRequest_networkOnly (fun _ => Except.ok demoOk) (fun _ => Except.ok demoOk)
    ⟨[]⟩ "https://hook.eu2.make.com/test" (by decide)).2.2.2 demoOk rfl

/-- C4: for an image-category request with no cached entry and a throwing
network fetch, `handleImageRequest` resolves (does not throw) with the
placeholder: an SVG body served with Content-Type `image/svg+xml`. -/
theorem handleImageRequest_placeholder (net : String → Except Unit Response)
    (s : CacheStorage) (url : String) (_himg : isImageRequest url = true)
    (hmiss : cachesMatch s url = none) (hnet : net url = Except.error ()) :
    handleImageRequest net s url = (Except.ok (some placeholderImage), s)
    ∧ headerLookup placeholderImage "Content-Type" = some "image/svg+xml"
    ∧ jsStartsWith placeholderImage.body "<svg" = true := by
  refine ⟨?_, rfl, by decide⟩
  simp [handleImageRequest, hmiss, hnet]

/-- C4 (witness): the placeholder branch at a concrete image request. -/
theorem handleImageRequest_placeholder_witness :
    handleImageRequest (fun _ => Except.error ()) ⟨[]⟩ "/photo.png"
      = (Except.ok (some placeholderImage), (⟨[]⟩ : CacheStorage)) :=
  (handleImageRequest_placeholder (fun _ => Except.error ()) ⟨[]⟩ "/photo.png"
    (by decide) rfl rfl).1

/-- C5: `handleHTMLRequest` is network-first — an `ok` network response is
stored in the dynamic namespace under the request URL (and is the entry found
there afterwards) and returned; when the fetch throws, the cached copy for
that URL is served if one exists, and otherwise the cache lookup of the
fallback document `/index.html` is served. -/
theorem handleHTMLRequest_networkFirst (net : String → Except Unit Response)
    (s : CacheStorage) (url : String) :
    (∀ nr, net url = Except.ok nr → nr.ok = true →
       handleHTMLRequest net s url
         = (Except.ok (some nr),
            cachePut (cachesOpen s CACHE_DYNAMIC_NAME) CACHE_DYNAMIC_NAME url nr)
       ∧ entryAt (handleHTMLRequest net s url).2 CACHE_DYNAMIC_NAME url = some nr)
    ∧ (net url = Except.error () → ∀ c, cachesMatch s url = some c →
       handleHTMLRequest net s url = (Except.ok (some c), s))
    ∧ (net url = Except.error () → cachesMatch s url = none →
       handleHTMLRequest net s url = (Except.ok (cachesMatch s "/index.html"), s)) := by
  refine ⟨?_, ?_, ?_⟩
  · intro nr hnet hok
    have heq : handleHTMLRequest net s url
        = (Except.ok (some nr),
           cachePut (cachesOpen s CACHE_DYNAMIC_NAME) CACHE_DYNAMIC_NAME url nr) := by
      simp [handleHTMLRequest, hnet, hok]
    refine ⟨heq, ?_⟩
    rw [heq]
    exact entryAt_open_put_self s CACHE_DYNAMIC_NAME url nr
  · intro hnet c hc
    simp [handleHTMLRequest, hnet, hc]
  · intro hnet hmiss
    simp [handleHTMLRequest, hnet, hmiss]

/-- C5 (witness): a successful `ok` page fetch at a concrete URL ends up
stored in the dynamic namespace. -/
theorem handleHTMLRequest_networkFirst_witness :
    entryAt (handleHTMLRequest (fun _ => Except.ok demoOk) ⟨[]⟩ "/page.html").2
        CACHE_DYNAMIC_NAME "/page.html" = some demoOk :=
  ((handleHTMLRequest_networkFirst (fun _ => Except.ok demoOk) ⟨[]⟩ "/page.html").1
    demoOk rfl rfl).2

/-- C9: a network response that is not `ok` is returned unchanged by the
static, image and page handlers, and no cache entry is created or changed
(the static handler merely opens the static namespace, which adds no
entries). -/
theorem handlers_nonOk_passthrough (net : String → Except Unit Response)
    (s : CacheStorage) (url : String) (r : Response)
    (hnet : net url = Except.ok r) (hok : r.ok = false) :
    (cachesMatch s url = none →
       handleStaticAsset net s url = (Except.ok (some r), cachesOpen s CACHE_STATIC_NAME)
       ∧ ∀ ns u, entryAt (cachesOpen s CACHE_STATIC_NAME) ns u = entryAt s ns u)
    ∧ (cachesMatch s url = none → handleImageRequest net s url = (Except.ok (some r), s))
    ∧ handleHTMLRequest net s url = (Except.ok (some r), s) := by
  refine ⟨?_, ?_, ?_⟩
  · intro hmiss
    refine ⟨?_, fun ns u => entryAt_cachesOpen s CACHE_STATIC_NAME ns u⟩
    simp [handleStaticAsset, hmiss, hnet, hok]
  · intro hmiss
    simp [handleImageRequest, hmiss, hnet, hok]
  · simp [handleHTMLRequest, hnet, hok]

/-- C9 (witness): a concrete 404-like response passes through the page
handler unchanged. -/
theorem handlers_nonOk_passthrough_witness :
    handleHTMLRequest (fun _ => Except.ok demoBad) ⟨[]⟩ "/missing.html"
      = (Except.ok (some demoBad), (⟨[]⟩ : CacheStorage)) :=
  (handlers_nonOk_passthrough (fun _ => Except.ok demoBad) ⟨[]⟩ "/missing.html"
    demoBad rfl rfl).2.2

/-- C2: after the activate handler runs, every namespace whose name starts
with `police288-` but is neither the current static name
`police288-static-v2.1.0` nor the current dynamic name
`police288-dynamic-v2.1.0` is gone, while namespaces without the prefix, and
the two current namespaces, are untouched. -/
theorem activateEvent_cleanup (s : CacheStorage) (n : String) :
    (jsStartsWith n "police288-" = true → ¬n = CACHE_STATIC_NAME →
       ¬n = CACHE_DYNAMIC_NAME → storageLookup (activateEvent s) n = none)
    ∧ (jsStartsWith n "police288-" = false →
       storageLookup (activateEvent s) n = storageLookup s n)
    ∧ storageLookup (activateEvent s) CACHE_STATIC_NAME = storageLookup s CACHE_STATIC_NAME
    ∧ storageLookup (activateEvent s) CACHE_DYNAMIC_NAME = storageLookup s CACHE_DYNAMIC_NAME
    ∧ CACHE_STATIC_NAME = "police288-static-v2.1.0"
    ∧ CACHE_DYNAMIC_NAME = "police288-dynamic-v2.1.0" := by
  refine ⟨?_, ?_, ?_, ?_, rfl, rfl⟩
  · intro h1 h2 h3
    exact activate_lookup_of_del s n (by simp [shouldDeleteCache, h1, h2, h3])
  · intro h1
    exact activate_lookup_of_keep s n (by simp [shouldDeleteCache, h1])
  · exact activate_lookup_of_keep s _ (by simp [shouldDeleteCache])
  · exact activate_lookup_of_keep s _ (by simp [shouldDeleteCache])

/-- C2 (witness): activating v2.1.0 over a storage holding the v2.0.0
namespaces, the v2.1.0 namespaces and an unprefixed namespace deletes exactly
the v2.0.0 ones. -/
theorem activateEvent_cleanup_witness :
    storageLookup (activateEvent demoStores) "police288-static-v2.0.0" = none
    ∧ storageLookup (activateEvent demoStores) "police288-dynamic-v2.0.0" = none
    ∧ storageLookup (activateEvent demoStores) "police288-static-v2.1.0" = some []
    ∧ storageLookup (activateEvent demoStores) "unrelated-cache" = some [] := by
  refine ⟨(activateEvent_cleanup demoStores "police288-static-v2.0.0").1
            (by decide) (by decide) (by decide),
         (activateEvent_cleanup demoStores "police288-dynamic-v2.0.0").1
            (by decide) (by decide) (by decide),
         ?_, ?_⟩
  · have h := (activateEvent_cleanup demoStores "police288-static-v2.1.0").2.2.1
    exact h.trans (by decide)
  · have h := (activateEvent_cleanup demoStores "unrelated-cache").2.1 (by decide)
    exact h.trans (by decide)

/-- C6 (counterexample to the claim as stated): with a network that fails on
every manifest URL, the install `waitUntil` promise still resolves — the
`catch` swallows the rejection, so installation is not aborted (though
`skipWaiting` is never reached). -/
theorem install_failure_resolves_cex :
    (installEvent (fun _ => Except.error ()) ⟨[]⟩).resolved = true
    ∧ (installEvent (fun _ => Except.error ()) ⟨[]⟩).skipWaitingCalled = false :=
  ⟨rfl, rfl⟩

/-- C6 (amended): when fetching or caching any static-manifest URL fails
during install, the rejection is caught and only logged: the install
lifecycle promise resolves (installation completes), `skipWaiting` is not
called, and the static namespace is not populated by that run (both
namespaces merely get opened). -/
theorem installEvent_failure_swallowed (net : String → Except Unit Response)
    (s : CacheStorage)
    (h : cacheAddAll net
        ((storageLookup (cachesOpen s CACHE_STATIC_NAME) CACHE_STATIC_NAME).getD [])
        STATIC_CACHE_URLS = Except.error ()) :
    installEvent net s
      = { resolved := true, skipWaitingCalled := false,
          state := cachesOpen (cachesOpen s CACHE_STATIC_NAME) CACHE_DYNAMIC_NAME } := by
  simp only [installEvent]
  rw [h]

/-- C6 (witness): the failing install at a concrete network and storage. -/
theorem installEvent_failure_swallowed_witness :
    installEvent (fun _ => Except.error ()) ⟨[]⟩
      = { resolved := true, skipWaitingCalled := false,
          state := cachesOpen (cachesOpen ⟨[]⟩ CACHE_STATIC_NAME) CACHE_DYNAMIC_NAME } :=
  installEvent_failure_swallowed (fun _ => Except.error ()) ⟨[]⟩ rfl

/-- C7 (code behaviour): the retry guard
`retryCount < maxRetries && !error.name === 'AbortError'` compares the
boolean `!error.name` against a string under strict equality, so it is false
for every error, and `sendToMakeWebhook` never retries: the first failed
attempt (here a network `TypeError` at `retryCount = 0`) immediately yields
`{success: false}` with no retry — while the declared constants are indeed
two retries, a 10-second timeout and a 2-second delay. -/
theorem sendToMakeWebhook_never_retries :
    sendToMakeWebhook (fun _ => AttemptOutcome.netError "TypeError") 0
      = { success := false, finalRetryCount := 0 }
    ∧ (∀ (retryCount : Nat) (errName : String), retryCondition retryCount errName = false)
    ∧ maxRetries = 2 ∧ webhookTimeoutMs = 10000 ∧ retryDelayMs = 2000 := by
  have hcond : ∀ (retryCount : Nat) (errName : String),
      retryCondition retryCount errName = false := by
    intro retryCount errName
    simp [retryCondition, jsNotVal, jsStrictEq]
  refine ⟨?_, hcond, rfl, rfl, rfl⟩
  rw [sendToMakeWebhook]
  simp [hcond]

/-- Populating a cache from a manifest whose fetches all succeed with `ok`
responses: the batch fetch returns the per-URL responses in manifest order. -/
theorem fetchAllOk_ok (r : String → Response) (hr : ∀ u, (r u).ok = true) :
    ∀ urls, fetchAllOk (fun u => Except.ok (r u)) urls
      = Except.ok (urls.map fun u => (u, r u)) := by
  intro urls
  induction urls with
  | nil => rfl
  | cons u us ih => simp [fetchAllOk, hr u, ih, Except.map]

/-- Entries of an association list with distinct keys are each found by
lookup. -/
theorem lookup_map_pairs :
    ∀ (ps : Cache), (ps.map Prod.fst).Nodup →
      ∀ p ∈ ps, cacheLookup ps p.1 = some p.2 := by
  intro ps
  induction ps with
  | nil =>
    intro _ p hp
    exact absurd hp (List.not_mem_nil p)
  | cons a as ih =>
    intro hnd p hp
    rw [List.map_cons] at hnd
    have hnds := List.nodup_cons.mp hnd
    rcases List.mem_cons.mp hp with hpa | hpas
    · subst hpa
      unfold cacheLookup
      rw [List.find?_cons_of_pos _ (by simp)]
      rfl
    · have hne : ¬a.1 = p.1 := by
        intro h
        exact hnds.1 (h ▸ List.mem_map_of_mem Prod.fst hpas)
      have := ih hnds.2 p hpas
      unfold cacheLookup at this ⊢
      rwa [List.find?_cons_of_neg _ (by simp [hne])]

/-- Re-putting the value a distinct-key association list already holds under
a key leaves the list unchanged (the in-place overwrite writes back the same
entry). -/
theorem map_replace_eq_self (u : String) (r : Response) :
    ∀ (c : Cache), (c.map Prod.fst).Nodup → cacheLookup c u = some r →
      (c.map fun e => if e.1 = u then (u, r) else e) = c := by
  intro c
  induction c with
  | nil => intro _ _; rfl
  | cons a as ih =>
    intro hnd hl
    rw [List.map_cons] at hnd
    have hnds := List.nodup_cons.mp hnd
    obtain ⟨a1, a2⟩ := a
    by_cases ha : a1 = u
    · have h2 : a2 = r := by
        unfold cacheLookup at hl
        rw [List.find?_cons_of_pos _ (by simp [ha])] at hl
        simpa using hl
      have hrest : ∀ e ∈ as, (if e.1 = u then (u, r) else e) = e := by
        intro e he
        rw [if_neg]
        intro heu
        exact hnds.1 (by simpa [ha, ← heu] using List.mem_map_of_mem Prod.fst he)
      have hhead : (if (a1, a2).1 = u then (u, r) else (a1, a2)) = (a1, a2) := by
        rw [if_pos ha, ← ha, ← h2]
      rw [List.map_cons, hhead, (List.map_congr_left hrest).trans (List.map_id as)]
    · have hl2 : cacheLookup as u = some r := by
        unfold cacheLookup at hl ⊢
        rwa [List.find?_cons_of_neg _ (by simp [ha])] at hl
      rw [List.map_cons, if_neg ha, ih hnds.2 hl2]

/-- `cache.put` of a value already stored under its key in a distinct-key
cache is the identity. -/
theorem putEntry_existing_eq (u : String) (r : Response) (c : Cache)
    (hnd : (c.map Prod.fst).Nodup) (hl : cacheLookup c u = some r) :
    cachePutEntry c u r = c := by
  obtain ⟨e, hfind, _⟩ := Option.map_eq_some'.mp hl
  have hpe := List.find?_some hfind
  have hany : c.any (fun e => e.1 = u) = true :=
    List.any_eq_true.mpr ⟨e, List.mem_of_find?_eq_some hfind, hpe⟩
  unfold cachePutEntry
  rw [if_pos hany]
  exact map_replace_eq_self u r c hnd hl

/-- Re-running a batch of puts whose entries the distinct-key cache already
holds changes nothing. -/
theorem foldl_put_refill :
    ∀ (ps : List (String × Response)) (c : Cache), (c.map Prod.fst).Nodup →
      (∀ p ∈ ps, cacheLookup c p.1 = some p.2) →
      ps.foldl (fun acc ur => cachePutEntry acc ur.1 ur.2) c = c := by
  intro ps
  induction ps with
  | nil => intro c _ _; rfl
  | cons p ps ih =>
    intro c hnd hlk
    rw [List.foldl_cons, putEntry_existing_eq p.1 p.2 c hnd (hlk p (List.mem_cons_self p ps))]
    exact ih c hnd fun q hq => hlk q (List.mem_cons_of_mem p hq)

/-- A batch of puts of fresh, pairwise-distinct keys appends the entries in
order. -/
theorem foldl_put_fresh :
    ∀ (ps : List (String × Response)) (c : Cache),
      (∀ p ∈ ps, c.any (fun e => e.1 = p.1) = false) → (ps.map Prod.fst).Nodup →
      ps.foldl (fun acc ur => cachePutEntry acc ur.1 ur.2) c = c ++ ps := by
  intro ps
  induction ps with
  | nil => intro c _ _; simp
  | cons p ps ih =>
    intro c habs hnd
    rw [List.map_cons] at hnd
    have hnds := List.nodup_cons.mp hnd
    have hput : cachePutEntry c p.1 p.2 = c ++ [p] := by
      unfold cachePutEntry
      rw [if_neg (by simp [habs p (List.mem_cons_self p ps)])]
    rw [List.foldl_cons, hput, ih (c ++ [p]) ?_ hnds.2]
    · simp
    · intro q hq
      have hq1 : ¬p.1 = q.1 := by
        intro h
        exact hnds.1 (h ▸ List.mem_map_of_mem Prod.fst hq)
      simp [List.any_append, habs q (List.mem_cons_of_mem p hq), hq1]

/-- C8: installing twice from scratch with the same manifest and the same
successful network responses is idempotent — the second run leaves the state
of the first, and the static namespace holds exactly one entry per manifest
URL (query string included, keys in manifest order, which has no
duplicates). -/
theorem installEvent_idempotent (r : String → Response) (hr : ∀ u, (r u).ok = true) :
    (installEvent (fun u => Except.ok (r u))
        (installEvent (fun u => Except.ok (r u)) ⟨[]⟩).state).state
      = (installEvent (fun u => Except.ok (r u)) ⟨[]⟩).state
    ∧ staticCacheOf (installEvent (fun u => Except.ok (r u)) ⟨[]⟩).state
      = STATIC_CACHE_URLS.map (fun u => (u, r u))
    ∧ (staticCacheOf (installEvent (fun u => Except.ok (r u)) ⟨[]⟩).state).map Prod.fst
      = STATIC_CACHE_URLS
    ∧ STATIC_CACHE_URLS.Nodup := by
  have hf := fetchAllOk_ok r hr STATIC_CACHE_URLS
  have hkeys : ((STATIC_CACHE_URLS.map fun u => (u, r u)).map Prod.fst) = STATIC_CACHE_URLS := by
    rw [List.map_map]
    exact List.map_id STATIC_CACHE_URLS
  have hndL : ((STATIC_CACHE_URLS.map fun u => (u, r u)).map Prod.fst).Nodup := by
    rw [hkeys]
    decide
  have haddFresh : cacheAddAll (fun u => Except.ok (r u))
      ((storageLookup (cachesOpen (⟨[]⟩ : CacheStorage) CACHE_STATIC_NAME)
          CACHE_STATIC_NAME).getD [])
      STATIC_CACHE_URLS
      = Except.ok (STATIC_CACHE_URLS.map fun u => (u, r u)) := by
    rw [show ((storageLookup (cachesOpen (⟨[]⟩ : CacheStorage) CACHE_STATIC_NAME)
          CACHE_STATIC_NAME).getD []) = ([] : Cache) from rfl]
    rw [cacheAddAll, hf]
    simp only [Except.map]
    rw [foldl_put_fresh _ [] (by simp) hndL]
    simp
  have hstate1 : installEvent (fun u => Except.ok (r u)) ⟨[]⟩
      = { resolved := true, skipWaitingCalled := true,
          state := ⟨[(CACHE_STATIC_NAME, STATIC_CACHE_URLS.map fun u => (u, r u)),
                     (CACHE_DYNAMIC_NAME, [])]⟩ } := by
    simp only [installEvent]
    rw [haddFresh]
    rfl
  have hlks : ∀ p ∈ STATIC_CACHE_URLS.map fun u => (u, r u),
      cacheLookup (STATIC_CACHE_URLS.map fun u => (u, r u)) p.1 = some p.2 :=
    lookup_map_pairs _ hndL
  have haddRefill : cacheAddAll (fun u => Except.ok (r u))
      ((storageLookup (cachesOpen
          (⟨[(CACHE_STATIC_NAME, STATIC_CACHE_URLS.map fun u => (u, r u)),
             (CACHE_DYNAMIC_NAME, [])]⟩ : CacheStorage) CACHE_STATIC_NAME)
          CACHE_STATIC_NAME).getD [])
      STATIC_CACHE_URLS
      = Except.ok (STATIC_CACHE_URLS.map fun u => (u, r u)) := by
    rw [show ((storageLookup (cachesOpen
          (⟨[(CACHE_STATIC_NAME, STATIC_CACHE_URLS.map fun u => (u, r u)),
             (CACHE_DYNAMIC_NAME, [])]⟩ : CacheStorage) CACHE_STATIC_NAME)
          CACHE_STATIC_NAME).getD [])
        = (STATIC_CACHE_URLS.map fun u => (u, r u)) from rfl]
    rw [cacheAddAll, hf]
    simp only [Except.map]
    rw [foldl_put_refill _ _ hndL hlks]
  refine ⟨?_, ?_, ?_, by decide⟩
  · rw [hstate1]
    show (installEvent (fun u => Except.ok (r u))
        (⟨[(CACHE_STATIC_NAME, STATIC_CACHE_URLS.map fun u => (u, r u)),
           (CACHE_DYNAMIC_NAME, [])]⟩ : CacheStorage)).state
      = (⟨[(CACHE_STATIC_NAME, STATIC_CACHE_URLS.map fun u => (u, r u)),
           (CACHE_DYNAMIC_NAME, [])]⟩ : CacheStorage)
    simp only [installEvent]
    rw [haddRefill]
    rfl
  · rw [hstate1]
    rfl
  · rw [hstate1]
    show ((STATIC_CACHE_URLS.map fun u => (u, r u)).map Prod.fst) = STATIC_CACHE_URLS
    exact hkeys

/-- C8 (witness): the double install at a concrete `ok` response. -/
theorem installEvent_idempotent_witness :
    (installEvent (fun _ => Except.ok demoOk)
        (installEvent (fun _ => Except.ok demoOk) ⟨[]⟩).state).state
      = (installEvent (fun _ => Except.ok demoOk) ⟨[]⟩).state :=
  (installEvent_idempotent (fun _ => demoOk) (fun _ => rfl)).1

/-- A fold of per-element maps is the map of the per-element fold. -/
theorem foldl_map_comm {α β : Type} (g : β → α → α) (pairs : List β) (s : List α) :
    pairs.foldl (fun res p => res.map (g p)) s
      = s.map fun c => pairs.foldl (fun x p => g p x) c := by
  induction pairs generalizing s with
  | nil => simp
  | cons p ps ih =>
    rw [List.foldl_cons, ih, List.map_map]
    rfl

/-- The ten sequential global replacements act on each character as the
single character map `digitMapChar`. -/
theorem conv_eq_map_digit (s : List Char) :
    convertArabicToEnglishNumbers s = s.map digitMapChar := by
  have h0 : convertArabicToEnglishNumbers s
      = (arabicNumbers.zip englishNumbers).foldl
          (fun res p => res.map fun c => if c = p.1 then p.2 else c) s := rfl
  rw [h0, foldl_map_comm (fun (p : Char × Char) (c : Char) => if c = p.1 then p.2 else c)]
  apply List.map_congr_left
  intro c _
  by_cases e0 : c = '٠'
  · subst e0; decide
  by_cases e1 : c = '١'
  · subst e1; decide
  by_cases e2 : c = '٢'
  · subst e2; decide
  by_cases e3 : c = '٣'
  · subst e3; decide
  by_cases e4 : c = '٤'
  · subst e4; decide
  by_cases e5 : c = '٥'
  · subst e5; decide
  by_cases e6 : c = '٦'
  · subst e6; decide
  by_cases e7 : c = '٧'
  · subst e7; decide
  by_cases e8 : c = '٨'
  · subst e8; decide
  by_cases e9 : c = '٩'
  · subst e9; decide
  simp [arabicNumbers, englishNumbers, digitMapChar, e0, e1, e2, e3, e4, e5, e6, e7, e8, e9]

/-- `digitMapChar` is a retraction: mapping an already-mapped character
changes nothing. -/
theorem digitMapChar_fixes (c : Char) : digitMapChar (digitMapChar c) = digitMapChar c := by
  by_cases e0 : c = '٠'
  · subst e0; decide
  by_cases e1 : c = '١'
  · subst e1; decide
  by_cases e2 : c = '٢'
  · subst e2; decide
  by_cases e3 : c = '٣'
  · subst e3; decide
  by_cases e4 : c = '٤'
  · subst e4; decide
  by_cases e5 : c = '٥'
  · subst e5; decide
  by_cases e6 : c = '٦'
  · subst e6; decide
  by_cases e7 : c = '٧'
  · subst e7; decide
  by_cases e8 : c = '٨'
  · subst e8; decide
  by_cases e9 : c = '٩'
  · subst e9; decide
  simp [digitMapChar, e0, e1, e2, e3, e4, e5, e6, e7, e8, e9]

/-- C10: `convertArabicToEnglishNumbers` maps each character through
`digitMapChar` (each Arabic-Indic digit to its ASCII digit — witnessed by
the digit arrays mapping onto each other — and every other character to
itself), preserving length and order, and is idempotent. -/
theorem convertArabicToEnglishNumbers_spec :
    (∀ s : List Char, convertArabicToEnglishNumbers s = s.map digitMapChar)
    ∧ (∀ s : List Char, (convertArabicToEnglishNumbers s).length = s.length)
    ∧ (∀ s : List Char,
       convertArabicToEnglishNumbers (convertArabicToEnglishNumbers s)
         = convertArabicToEnglishNumbers s)
    ∧ arabicNumbers.map digitMapChar = englishNumbers
    ∧ (∀ c : Char, ¬c ∈ arabicNumbers → digitMapChar c = c) := by
  refine ⟨conv_eq_map_digit, ?_, ?_, by decide, ?_⟩
  · intro s
    simp [conv_eq_map_digit]
  · intro s
    simp only [conv_eq_map_digit, List.map_map]
    apply List.map_congr_left
    intro c _
    exact digitMapChar_fixes c
  · intro c hc
    simp only [arabicNumbers, List.mem_cons, List.not_mem_nil, or_false, not_or] at hc
    obtain ⟨e0, e1, e2, e3, e4, e5, e6, e7, e8, e9⟩ := hc
    simp [digitMapChar, e0, e1, e2, e3, e4, e5, e6, e7, e8, e9]

/-- C10 (witness): the conversion at a concrete mixed string, and the
identity of the map on a non-digit character. -/
theorem convertArabicToEnglishNumbers_spec_witness :
    convertArabicToEnglishNumbers ['٣', '5', 'م'] = ['3', '5', 'م']
    ∧ digitMapChar 'م' = 'م' := by
  refine ⟨?_, convertArabicToEnglishNumbers_spec.2.2.2.2 'م' (by decide)⟩
  rw [convertArabicToEnglishNumbers_spec.1]
  decide

end Police288
